import Mathlib

/-!
Shallow embedding of `src/bigquery_to_sqlite.py`, a single-file ETL job that
copies rows from a BigQuery table `daily_kbars` into a local SQLite table of
the same name, batching upserts and committing once at the end of a run.

Python's dynamically typed row values are modelled by `Value`; Python floats
are modelled by `ℚ` (the claims checked here concern type coercion and
equality of small concrete values, not rounding).  The SQLite table is
modelled as a list of typed rows; `INSERT OR REPLACE` removes every row that
shares the new row's primary key `(ts, stock_code)` and appends the new row.
The sqlite3 connection's transaction is modelled explicitly: batch upserts
act on a working copy of the table, `commit` publishes it, and the
`except` branch of `convert_bigquery_to_sqlite` rolls back to the pre-run
state and re-raises.
-/

set_option maxRecDepth 10000

namespace BqToSqlite

/-- A Python `datetime`-like value, as far as the script observes it:
`row.ts.isoformat()` is the only method ever called on it. -/
structure DateTime where
  year : Nat
  month : Nat
  day : Nat
  hour : Nat
  minute : Nat
  second : Nat
deriving DecidableEq, Repr

/-- Zero-pad a number to two digits, as in ISO-8601 date-time rendering. -/
def pad2 (n : Nat) : String :=
  if n < 10 then "0" ++ toString n else toString n

/-- Zero-pad a number to four digits, as in ISO-8601 year rendering. -/
def pad4 (n : Nat) : String :=
  if n < 10 then "000" ++ toString n
  else if n < 100 then "00" ++ toString n
  else if n < 1000 then "0" ++ toString n
  else toString n

/-- Python's `datetime.isoformat()`: `YYYY-MM-DDTHH:MM:SS`
(microseconds, which the script's data does not carry, are omitted). -/
def DateTime.isoformat (d : DateTime) : String :=
  pad4 d.year ++ "-" ++ pad2 d.month ++ "-" ++ pad2 d.day ++ "T" ++
    pad2 d.hour ++ ":" ++ pad2 d.minute ++ ":" ++ pad2 d.second

/-- Python's `str(datetime)`: same fields with a space separator. -/
def DateTime.strRepr (d : DateTime) : String :=
  pad4 d.year ++ "-" ++ pad2 d.month ++ "-" ++ pad2 d.day ++ " " ++
    pad2 d.hour ++ ":" ++ pad2 d.minute ++ ":" ++ pad2 d.second

/-- A dynamically typed Python value as it may appear in a BigQuery row
field: an int, a float (modelled exactly as a rational), a string, or a
datetime. -/
inductive Value where
  | vInt : Int → Value
  | vFloat : ℚ → Value
  | vStr : String → Value
  | vDateTime : DateTime → Value
deriving DecidableEq, Repr

/-- Python's `str()` on the values above.  The float branch is an
approximation (exact decimal when the rational is integral); no claim
exercises it. -/
def pyStr : Value → String
  | .vInt n => toString n
  | .vFloat q => if q.den = 1 then toString q.num ++ ".0" else toString q
  | .vStr s => s
  | .vDateTime d => d.strRepr

/-- `hasattr(v, 'isoformat')`: only datetime values carry date-time
semantics. -/
def hasIsoformat : Value → Bool
  | .vDateTime _ => true
  | _ => false

/-- Line 109 of the script:
`row.ts.isoformat() if hasattr(row.ts, 'isoformat') else str(row.ts)`. -/
def tsToStr : Value → String
  | .vDateTime d => d.isoformat
  | v => pyStr v

/-- Decimal digit value of a character, if it is a digit. -/
def digitVal (c : Char) : Option Nat :=
  if c.isDigit then some (c.toNat - 48) else none

/-- Parse a nonempty all-digit character list as a natural number. -/
def parseNatDigits (cs : List Char) : Option Nat :=
  if cs.isEmpty then none
  else cs.foldlM (fun a c => (digitVal c).map (fun d => a * 10 + d)) 0

/-- Python's `int(s)` on a string: optional sign followed by digits;
anything else raises `ValueError` (here: `none`). -/
def pyIntOfString (s : String) : Option Int :=
  match s.toList with
  | [] => none
  | '-' :: cs => (parseNatDigits cs).map (fun n => -(n : Int))
  | '+' :: cs => (parseNatDigits cs).map (fun n => (n : Int))
  | cs => (parseNatDigits cs).map (fun n => (n : Int))

/-- Parse an unsigned decimal literal, with an optional single point. -/
def parseUnsignedFloat (cs : List Char) : Option ℚ :=
  match cs.span (fun c => c != '.') with
  | (as, []) => (parseNatDigits as).map (fun n => (n : ℚ))
  | (as, _ :: bs) =>
    if bs.contains '.' then none
    else if as.isEmpty && bs.isEmpty then none
    else do
      let i ← if as.isEmpty then pure 0 else parseNatDigits as
      let f ← if bs.isEmpty then pure 0 else parseNatDigits bs
      pure ((i : ℚ) + (f : ℚ) / (10 : ℚ) ^ bs.length)

/-- Python's `float(s)` on a string: optional sign and a decimal literal;
anything else raises `ValueError` (here: `none`). -/
def pyFloatOfString (s : String) : Option ℚ :=
  match s.toList with
  | [] => none
  | '-' :: cs => (parseUnsignedFloat cs).map (fun q => -q)
  | '+' :: cs => parseUnsignedFloat cs
  | cs => parseUnsignedFloat cs

/-- Python's `int(v)`: ints pass through, floats truncate toward zero,
numeric strings parse, anything else raises (here: `none`). -/
def pyInt : Value → Option Int
  | .vInt n => some n
  | .vFloat q => some (q.num.tdiv (q.den : Int))
  | .vStr s => pyIntOfString s
  | .vDateTime _ => none

/-- Python's `float(v)`: ints widen, floats pass through, numeric strings
parse, anything else raises (here: `none`). -/
def pyFloat : Value → Option ℚ
  | .vInt n => some (n : ℚ)
  | .vFloat q => some q
  | .vStr s => pyFloatOfString s
  | .vDateTime _ => none

/-- One row as delivered by the BigQuery cursor: every field still
dynamically typed. -/
structure SourceRow where
  ts : Value
  stock_code : Value
  Open : Value
  High : Value
  Low : Value
  Close : Value
  Volume : Value
deriving DecidableEq, Repr

/-- One transformed tuple as bound into the SQLite insert (lines 111–119):
`(ts_str, row.stock_code, float(Open), float(High), float(Low),
float(Close), int(Volume))`.  `stock_code` is passed through unchanged. -/
structure KbarRow where
  ts : String
  stock_code : Value
  Open : ℚ
  High : ℚ
  Low : ℚ
  Close : ℚ
  Volume : Int
deriving DecidableEq, Repr

/-- The per-row transform of the loop body (lines 108–119); `none` models a
coercion raising (`ValueError`/`TypeError`). -/
def transformRow (r : SourceRow) : Option KbarRow := do
  let o ← pyFloat r.Open
  let h ← pyFloat r.High
  let l ← pyFloat r.Low
  let c ← pyFloat r.Close
  let v ← pyInt r.Volume
  pure { ts := tsToStr r.ts, stock_code := r.stock_code,
         Open := o, High := h, Low := l, Close := c, Volume := v }

/-- The composite primary key `(ts, stock_code)` of the sink table. -/
def rowKey (r : KbarRow) : String × Value :=
  (r.ts, r.stock_code)

/-- `INSERT OR REPLACE`: delete every row conflicting on the primary key,
then insert the new row. -/
def upsertRow (t : List KbarRow) (r : KbarRow) : List KbarRow :=
  t.filter (fun x => decide (rowKey x ≠ rowKey r)) ++ [r]

/-- `cursor.executemany(insert_sql, batch)`: upsert each tuple in order. -/
def applyBatch (t : List KbarRow) (b : List KbarRow) : List KbarRow :=
  b.foldl upsertRow t

/-- Primary-key lookup in the sink table. -/
def tableLookup (k : String × Value) : List KbarRow → Option KbarRow
  | [] => none
  | r :: t => if rowKey r = k then some r else tableLookup k t

/-- Number of rows of the table carrying a given primary key. -/
def countKey (k : String × Value) (t : List KbarRow) : Nat :=
  t.countP (fun r => decide (rowKey r = k))

/-- `CREATE TABLE IF NOT EXISTS daily_kbars ...` (lines 15–27): an absent
table becomes empty, an existing table is untouched. -/
def createTable : Option (List KbarRow) → List KbarRow
  | none => []
  | some t => t

/-- The fixed query text of lines 71–82 (an f-string over the three
identifiers). -/
def baseQuery (project_id dataset_id table_id : String) : String :=
  "\n        SELECT \n            ts,\n            stock_code,\n            Open,\n            High,\n            Low,\n            Close,\n            Volume\n        FROM `" ++
    project_id ++ "." ++ dataset_id ++ "." ++ table_id ++
    "`\n        ORDER BY ts, stock_code\n        "

/-- Lines 84–85: `if limit: query += f" LIMIT {limit}"`.  Python truthiness
makes both `None` and `0` skip the clause. -/
def buildQuery (project_id dataset_id table_id : String)
    (limit : Option Int) : String :=
  let q := baseQuery project_id dataset_id table_id
  match limit with
  | none => q
  | some n => if n ≠ 0 then q ++ " LIMIT " ++ toString n else q

/-- The exceptions the run can hit after the sink connection is open:
a query-execution error, a coercion error in the transform, or an insert
error from the sink. -/
inductive ConvError where
  | queryFailed
  | coercionFailed
  | insertFailed
deriving DecidableEq, Repr

/-- The external world of one run: the rows the source cursor would deliver
(in arrival order), whether the remote query raises, and at which
`executemany` calls the sink raises. -/
structure Env where
  rows : List SourceRow
  queryError : Bool
  insertError : Nat → Bool

/-- Mutable state of the transfer loop (lines 102–125): the in-transaction
working table, the batch buffer, `total_rows`, the index of the next flush,
and the observable flush/progress history. -/
structure LoopState where
  working : List KbarRow
  batch : List KbarRow
  total : Nat
  flushIdx : Nat
  flushes : List (List KbarRow)
  reports : List Nat

/-- Observable outcome of one run: the propagated error if any, the final
`total_rows`, the committed table (the pre-run table when rolled back),
every batch passed to `executemany`, and every progress count printed. -/
structure Outcome where
  error : Option ConvError
  total : Nat
  committed : Option (List KbarRow)
  flushes : List (List KbarRow)
  reports : List Nat
deriving DecidableEq, Repr

/-- The `for row in results` loop plus final flush and commit
(lines 107–133); every error path rolls back to `db0` and propagates. -/
def runLoop (insertError : Nat → Bool) (db0 : Option (List KbarRow)) :
    List SourceRow → LoopState → Outcome
  | [], st =>
    if st.batch.isEmpty then
      { error := none, total := st.total, committed := some st.working,
        flushes := st.flushes, reports := st.reports }
    else if insertError st.flushIdx then
      { error := some .insertFailed, total := st.total, committed := db0,
        flushes := st.flushes, reports := st.reports }
    else
      { error := none, total := st.total + st.batch.length,
        committed := some (applyBatch st.working st.batch),
        flushes := st.flushes ++ [st.batch], reports := st.reports }
  | r :: rs, st =>
    match transformRow r with
    | none =>
      { error := some .coercionFailed, total := st.total, committed := db0,
        flushes := st.flushes, reports := st.reports }
    | some tr =>
      let b := st.batch ++ [tr]
      if b.length ≥ 1000 then
        if insertError st.flushIdx then
          { error := some .insertFailed, total := st.total, committed := db0,
            flushes := st.flushes, reports := st.reports }
        else
          runLoop insertError db0 rs
            { working := applyBatch st.working b, batch := [],
              total := st.total + b.length, flushIdx := st.flushIdx + 1,
              flushes := st.flushes ++ [b],
              reports := st.reports ++ [st.total + b.length] }
      else
        runLoop insertError db0 rs { st with batch := b }

/-- The whole of `convert_bigquery_to_sqlite` after the sink connection is
open: create the table inside the implicit transaction, run the query, run
the transfer loop, commit on success; on any exception roll back to the
pre-run state `db0` and re-raise. -/
def convert (env : Env) (db0 : Option (List KbarRow)) : Outcome :=
  let working := createTable db0
  if env.queryError then
    { error := some .queryFailed, total := 0, committed := db0,
      flushes := [], reports := [] }
  else
    runLoop env.insertError db0 env.rows
      { working := working, batch := [], total := 0, flushIdx := 0,
        flushes := [], reports := [] }

/-- `keyFree l x`: no row of `l` shares `x`'s primary key. -/
def keyFree (l : List KbarRow) (x : KbarRow) : Bool :=
  l.all (fun r => decide (rowKey r ≠ rowKey x))

/-- Keep, for each primary key, only the last row of the list carrying it
(the survivor of a sequence of upserts). -/
def dedupLast : List KbarRow → List KbarRow
  | [] => []
  | r :: rs => (if keyFree rs r then [r] else []) ++ dedupLast rs

/-- Sample datetime used in concrete checks. -/
def dtSample : DateTime :=
  { year := 2024, month := 3, day := 7, hour := 9, minute := 5, second := 0 }

/-- A row exercising the documented coercions: volume as the numeric
string "1200", close as the integer 101. -/
def rowCoerce : SourceRow :=
  { ts := .vDateTime dtSample, stock_code := .vStr "2330",
    Open := .vInt 100, High := .vFloat 102, Low := .vInt 99,
    Close := .vInt 101, Volume := .vStr "1200" }

/-- The transformed image of `rowCoerce`. -/
def kbarCoerce : KbarRow :=
  { ts := "2024-03-07T09:05:00", stock_code := .vStr "2330",
    Open := 100, High := 102, Low := 99, Close := 101,
    Volume := 1200 }

/-- A row whose close price cannot be coerced to float. -/
def rowBad : SourceRow :=
  { ts := .vStr "2024-03-07", stock_code := .vStr "2330",
    Open := .vInt 1, High := .vInt 2, Low := .vInt 0,
    Close := .vStr "abc", Volume := .vInt 10 }

/-- A sink row present before a run, used to observe rollback. -/
def preKbar : KbarRow :=
  { ts := "2020-01-01", stock_code := .vStr "0050",
    Open := 1, High := 1, Low := 1, Close := 1, Volume := 1 }

/-- Two source rows sharing the (ts, stock_code) key, differing in Close. -/
def rowK1 : SourceRow :=
  { ts := .vStr "2024-03-07", stock_code := .vStr "2330",
    Open := .vInt 1, High := .vInt 2, Low := .vInt 0,
    Close := .vInt 101, Volume := .vInt 5 }

/-- Second row of the duplicate-key pair. -/
def rowK2 : SourceRow := { rowK1 with Close := .vInt 999 }

/-- The transformed image of `rowK2`. -/
def kbarK2 : KbarRow :=
  { ts := "2024-03-07", stock_code := .vStr "2330",
    Open := 1, High := 2, Low := 0, Close := 999, Volume := 5 }

/-- The transformed image of `rowK1`. -/
def kbarK1 : KbarRow := { kbarK2 with Close := 101 }

/-- Two source rows with distinct keys. -/
def rowD1 : SourceRow :=
  { ts := .vStr "2024-03-07", stock_code := .vStr "2330",
    Open := .vInt 10, High := .vInt 12, Low := .vInt 9,
    Close := .vInt 11, Volume := .vInt 100 }

/-- Second row of the distinct-key pair. -/
def rowD2 : SourceRow := { rowD1 with stock_code := .vStr "2317" }

/-- A sink that never raises on insert. -/
def noFail : Nat → Bool := fun _ => false

/-- Environment: two distinct-key rows, no failures. -/
def envOk : Env :=
  { rows := [rowD1, rowD2], queryError := false, insertError := noFail }

/-- Environment: the same two rows in the opposite arrival order. -/
def envOkRev : Env :=
  { rows := [rowD2, rowD1], queryError := false, insertError := noFail }

/-- Environment: two rows sharing one key, no failures. -/
def envDup : Env :=
  { rows := [rowK1, rowK2], queryError := false, insertError := noFail }

/-- Environment: the duplicate-key pair in the opposite arrival order. -/
def envDupRev : Env :=
  { rows := [rowK2, rowK1], queryError := false, insertError := noFail }

/-- Environment: one uncoercible row, no sink failures. -/
def envBad : Env :=
  { rows := [rowBad], queryError := false, insertError := noFail }

/-- Environment: an empty source result. -/
def envEmpty : Env :=
  { rows := [], queryError := false, insertError := noFail }

theorem keyFree_eq_true_iff (l : List KbarRow) (x : KbarRow) :
    keyFree l x = true ↔ ∀ r ∈ l, rowKey r ≠ rowKey x := by
  simp [keyFree]

theorem keyFree_eq_false_of_mem {l : List KbarRow} {x : KbarRow} (h : x ∈ l) :
    keyFree l x = false := by
  cases hkf : keyFree l x
  · rfl
  · exact absurd rfl ((keyFree_eq_true_iff l x).mp hkf x h)

/-- A run of upserts decomposes the table: the rows of the old table whose
key is not touched by the batch survive in place, followed by the last
batch row of each touched key, in order. -/
theorem applyBatch_eq (l : List KbarRow) :
    ∀ t, applyBatch t l = t.filter (keyFree l) ++ dedupLast l := by
  induction l with
  | nil =>
    intro t
    show t = t.filter (keyFree []) ++ dedupLast []
    have : t.filter (keyFree []) = t := List.filter_eq_self.mpr (fun a _ => rfl)
    rw [this, dedupLast, List.append_nil]
  | cons r rs ih =>
    intro t
    show applyBatch (upsertRow t r) rs = _
    rw [ih, upsertRow, List.filter_append, List.filter_filter,
      List.append_assoc, dedupLast]
    congr 1
    · apply List.filter_congr
      intro x _
      simp only [keyFree, List.all_cons]
      rw [Bool.and_comm]
      congr 1
      exact decide_eq_decide.mpr ne_comm
    · congr 1
      cases hkf : keyFree rs r <;> simp [List.filter, hkf]

theorem dedupLast_subset {x : KbarRow} :
    ∀ {l : List KbarRow}, x ∈ dedupLast l → x ∈ l := by
  intro l
  induction l with
  | nil => intro h; cases h
  | cons r rs ih =>
    intro h
    rw [dedupLast, List.mem_append] at h
    rcases h with h | h
    · by_cases hkf : keyFree rs r = true
      · rw [if_pos hkf, List.mem_singleton] at h
        exact h ▸ List.mem_cons_self r rs
      · rw [if_neg hkf] at h; cases h
    · exact List.mem_cons_of_mem r (ih h)

theorem filter_keyFree_dedupLast (l : List KbarRow) :
    (dedupLast l).filter (keyFree l) = [] := by
  rw [List.filter_eq_nil_iff]
  intro a ha
  rw [keyFree_eq_false_of_mem (dedupLast_subset ha)]
  simp

/-- Replaying a batch over the table it already produced changes nothing. -/
theorem applyBatch_idem (t : List KbarRow) (l : List KbarRow) :
    applyBatch (applyBatch t l) l = applyBatch t l := by
  rw [applyBatch_eq, applyBatch_eq, List.filter_append, filter_keyFree_dedupLast,
    List.append_nil, List.filter_filter]
  congr 1
  apply List.filter_congr
  intro x _
  rw [Bool.and_self]

theorem dedupLast_of_nodupKeys :
    ∀ {l : List KbarRow}, (l.map rowKey).Nodup → dedupLast l = l := by
  intro l
  induction l with
  | nil => intro _; rfl
  | cons r rs ih =>
    intro h
    rw [List.map_cons, List.nodup_cons] at h
    have hkf : keyFree rs r = true := by
      rw [keyFree_eq_true_iff]
      intro x hx he
      exact h.1 (he ▸ List.mem_map_of_mem rowKey hx)
    rw [dedupLast, if_pos hkf, ih h.2, List.singleton_append]

theorem tableLookup_append (k : String × Value) (l₁ l₂ : List KbarRow) :
    tableLookup k (l₁ ++ l₂) =
      match tableLookup k l₁ with
      | some r => some r
      | none => tableLookup k l₂ := by
  induction l₁ with
  | nil => rfl
  | cons r t ih =>
    by_cases h : rowKey r = k <;> simp [tableLookup, h, ih]

theorem tableLookup_eq_none_iff (k : String × Value) (t : List KbarRow) :
    tableLookup k t = none ↔ ∀ x ∈ t, rowKey x ≠ k := by
  induction t with
  | nil => simp [tableLookup]
  | cons r t ih =>
    by_cases h : rowKey r = k <;> simp [tableLookup, h, ih]

theorem tableLookup_some (k : String × Value) {t : List KbarRow} {r : KbarRow}
    (h : tableLookup k t = some r) : r ∈ t ∧ rowKey r = k := by
  induction t with
  | nil => cases h
  | cons x xs ih =>
    rw [tableLookup] at h
    by_cases hx : rowKey x = k
    · rw [if_pos hx] at h
      exact ⟨(Option.some_inj.mp h) ▸ List.mem_cons_self x xs, (Option.some_inj.mp h) ▸ hx⟩
    · rw [if_neg hx] at h
      exact ⟨List.mem_cons_of_mem x (ih h).1, (ih h).2⟩

theorem tableLookup_of_mem_nodup {t : List KbarRow}
    (hnd : (t.map rowKey).Nodup) {r : KbarRow} (hr : r ∈ t) :
    tableLookup (rowKey r) t = some r := by
  induction t with
  | nil => cases hr
  | cons x xs ih =>
    rw [List.map_cons, List.nodup_cons] at hnd
    rcases List.mem_cons.mp hr with h | h
    · subst h; simp [tableLookup]
    · have hne : rowKey x ≠ rowKey r := by
        intro he
        exact hnd.1 (he ▸ List.mem_map_of_mem rowKey h)
      rw [tableLookup, if_neg hne]
      exact ih hnd.2 h

/-- Primary-key lookup ignores the order of a duplicate-free table. -/
theorem tableLookup_perm {l₁ l₂ : List KbarRow} (hp : l₁.Perm l₂)
    (hnd : (l₁.map rowKey).Nodup) (k : String × Value) :
    tableLookup k l₁ = tableLookup k l₂ := by
  have hnd₂ : (l₂.map rowKey).Nodup := ((hp.map rowKey).nodup_iff).mp hnd
  cases h : tableLookup k l₁ with
  | some r =>
    obtain ⟨hm, hk⟩ := tableLookup_some k h
    subst hk
    exact (tableLookup_of_mem_nodup hnd₂ (hp.mem_iff.mp hm)).symm
  | none =>
    symm
    rw [tableLookup_eq_none_iff] at h ⊢
    intro x hx
    exact h x (hp.mem_iff.mpr hx)

theorem tableLookup_filter_keyFree {l t : List KbarRow} {k : String × Value}
    {r₀ : KbarRow} (h0 : r₀ ∈ l) (hk : rowKey r₀ = k) :
    tableLookup k (t.filter (keyFree l)) = none := by
  rw [tableLookup_eq_none_iff]
  intro x hx he
  rw [List.mem_filter] at hx
  exact (keyFree_eq_true_iff l x).mp hx.2 r₀ h0 (by rw [hk, he])

theorem countKey_filter_keyFree {l t : List KbarRow} {k : String × Value}
    {r₀ : KbarRow} (h0 : r₀ ∈ l) (hk : rowKey r₀ = k) :
    countKey k (t.filter (keyFree l)) = 0 := by
  rw [countKey, List.countP_eq_zero]
  intro a ha
  rw [List.mem_filter] at ha
  simp only [decide_eq_true_eq]
  intro he
  exact (keyFree_eq_true_iff l a).mp ha.2 r₀ h0 (by rw [hk, he])

/-- Every error path of the loop rolls the sink back to the pre-run
table. -/
theorem runLoop_error_committed (fe : Nat → Bool) (db0 : Option (List KbarRow)) :
    ∀ (rs : List SourceRow) (st : LoopState) (e : ConvError),
      (runLoop fe db0 rs st).error = some e →
      (runLoop fe db0 rs st).committed = db0 := by
  intro rs
  induction rs with
  | nil =>
    intro st e h
    by_cases hb : st.batch.isEmpty
    · simp [runLoop, hb] at h
    · by_cases hf : fe st.flushIdx
      · simp [runLoop, hb, hf]
      · simp [runLoop, hb, hf] at h
  | cons r rs ih =>
    intro st e h
    cases htr : transformRow r with
    | none => simp [runLoop, htr]
    | some tr =>
      by_cases hlen : 999 ≤ st.batch.length
      · by_cases hf : fe st.flushIdx
        · simp [runLoop, htr, hlen, hf]
        · simp only [runLoop, htr] at h ⊢
          rw [if_pos (by simp; omega), if_neg hf] at h ⊢
          exact ih _ e h
      · simp only [runLoop, htr] at h ⊢
        rw [if_neg (by simp; omega)] at h ⊢
        exact ih _ e h

/-- On a successful pass the loop's observable outputs are determined by
the transformed row stream: the final count, the committed table, and the
concatenation of all flushed batches. -/
theorem runLoop_success (fe : Nat → Bool) (db0 : Option (List KbarRow)) :
    ∀ (rs : List SourceRow) (st : LoopState),
      (runLoop fe db0 rs st).error = none →
      (runLoop fe db0 rs st).total = st.total + st.batch.length + rs.length
      ∧ (runLoop fe db0 rs st).committed
          = some (applyBatch st.working (st.batch ++ rs.filterMap transformRow))
      ∧ (runLoop fe db0 rs st).flushes.flatten
          = st.flushes.flatten ++ st.batch ++ rs.filterMap transformRow := by
  intro rs
  induction rs with
  | nil =>
    intro st h
    by_cases hb : st.batch.isEmpty
    · have hbn : st.batch = [] := List.isEmpty_iff.mp hb
      simp [runLoop, hb, hbn, applyBatch]
    · by_cases hf : fe st.flushIdx
      · simp [runLoop, hb, hf] at h
      · simp [runLoop, hb, hf]
  | cons r rs ih =>
    intro st h
    cases htr : transformRow r with
    | none => simp [runLoop, htr] at h
    | some tr =>
      by_cases hlen : 999 ≤ st.batch.length
      · by_cases hf : fe st.flushIdx
        · simp only [runLoop, htr] at h
          rw [if_pos (by simp; omega), if_pos hf] at h
          simp at h
        · simp only [runLoop, htr] at h ⊢
          rw [if_pos (by simp; omega), if_neg hf] at h ⊢
          obtain ⟨ht, hc, hfl⟩ := ih _ h
          refine ⟨?_, ?_, ?_⟩
          · rw [ht]; simp [htr, List.filterMap_cons]; omega
          · rw [hc]
            simp only [List.nil_append, List.filterMap_cons, htr, applyBatch]
            rw [show st.batch ++ tr :: List.filterMap transformRow rs
                = (st.batch ++ [tr]) ++ List.filterMap transformRow rs
                from by simp]
            simp [List.foldl_append]
          · rw [hfl]; simp [htr, List.filterMap_cons]
      · simp only [runLoop, htr] at h ⊢
        rw [if_neg (by simp; omega)] at h ⊢
        obtain ⟨ht, hc, hfl⟩ := ih _ h
        refine ⟨?_, ?_, ?_⟩
        · rw [ht]; simp [htr, List.filterMap_cons]; omega
        · rw [hc]
          simp [htr, List.filterMap_cons]
        · rw [hfl]; simp [htr, List.filterMap_cons]

/-- Every flush the loop performs carries at most `batch_size` rows; every
flush but the trailing partial one carries exactly `batch_size` rows. -/
theorem runLoop_flush_bounds (fe : Nat → Bool) (db0 : Option (List KbarRow)) :
    ∀ (rs : List SourceRow) (st : LoopState),
      st.batch.length < 1000 → (∀ b ∈ st.flushes, b.length = 1000) →
      (runLoop fe db0 rs st).error = none →
      (∀ b ∈ (runLoop fe db0 rs st).flushes.dropLast, b.length = 1000)
      ∧ (∀ b ∈ (runLoop fe db0 rs st).flushes, 0 < b.length ∧ b.length ≤ 1000) := by
  intro rs
  induction rs with
  | nil =>
    intro st hb hfull h
    by_cases hbe : st.batch.isEmpty
    · simp only [runLoop, hbe, if_true, ite_true]
      refine ⟨fun b hbm => hfull b ((List.dropLast_sublist _).subset hbm),
        fun b hbm => ?_⟩
      rw [hfull b hbm]; omega
    · by_cases hf : fe st.flushIdx
      · simp [runLoop, hbe, hf] at h
      · have hbne : st.batch ≠ [] := by
          intro he; rw [he] at hbe; exact hbe rfl
        simp only [runLoop, hbe, hf, if_false, ite_false, if_true, ite_true,
          Bool.false_eq_true]
        constructor
        · intro b hbm
          rw [List.dropLast_concat] at hbm
          exact hfull b hbm
        · intro b hbm
          rcases List.mem_append.mp hbm with hm | hm
          · rw [hfull b hm]; omega
          · rw [List.mem_singleton] at hm
            subst hm
            exact ⟨List.length_pos.mpr hbne, by omega⟩
  | cons r rs ih =>
    intro st hb hfull h
    cases htr : transformRow r with
    | none => simp [runLoop, htr] at h
    | some tr =>
      by_cases hlen : 999 ≤ st.batch.length
      · by_cases hf : fe st.flushIdx
        · simp only [runLoop, htr] at h
          rw [if_pos (by simp; omega), if_pos hf] at h
          simp at h
        · simp only [runLoop, htr] at h ⊢
          rw [if_pos (by simp; omega), if_neg hf] at h ⊢
          refine ih _ (by simp) ?_ h
          intro b hbm
          rcases List.mem_append.mp hbm with hm | hm
          · exact hfull b hm
          · rw [List.mem_singleton] at hm
            subst hm
            simp only [List.length_append, List.length_singleton]
            omega
      · simp only [runLoop, htr] at h ⊢
        rw [if_neg (by simp; omega)] at h ⊢
        refine ih _ (by simp; omega) (by simpa using hfull) h

/-- The loop never reports more rows than the source delivered. -/
theorem runLoop_total_le (fe : Nat → Bool) (db0 : Option (List KbarRow)) :
    ∀ (rs : List SourceRow) (st : LoopState),
      (runLoop fe db0 rs st).total ≤ st.total + st.batch.length + rs.length := by
  intro rs
  induction rs with
  | nil =>
    intro st
    by_cases hbe : st.batch.isEmpty
    · simp [runLoop, hbe]
    · by_cases hf : fe st.flushIdx
      · simp [runLoop, hbe, hf]
      · simp [runLoop, hbe, hf]
  | cons r rs ih =>
    intro st
    cases htr : transformRow r with
    | none => simp [runLoop, htr]; omega
    | some tr =>
      by_cases hlen : 999 ≤ st.batch.length
      · by_cases hf : fe st.flushIdx
        · simp only [runLoop, htr]
          rw [if_pos (by simp; omega), if_pos hf]
          simp
          omega
        · simp only [runLoop, htr]
          rw [if_pos (by simp; omega), if_neg hf]
          refine le_trans (ih _) ?_
          simp
          omega
      · simp only [runLoop, htr]
        rw [if_neg (by simp; omega)]
        refine le_trans (ih _) ?_
        simp
        omega

/-- On a successful run the commit publishes exactly the upserts of the
transformed source stream over the created table, and the count and flush
history match it. -/
theorem convert_success (env : Env) (db0 : Option (List KbarRow))
    (h : (convert env db0).error = none) :
    env.queryError = false
    ∧ (convert env db0).total = env.rows.length
    ∧ (convert env db0).committed
        = some (applyBatch (createTable db0) (env.rows.filterMap transformRow))
    ∧ (convert env db0).flushes.flatten = env.rows.filterMap transformRow := by
  cases hq : env.queryError with
  | true => simp [convert, hq] at h
  | false =>
    have hcv : convert env db0 = runLoop env.insertError db0 env.rows
        { working := createTable db0, batch := [], total := 0, flushIdx := 0,
          flushes := [], reports := [] } := by
      simp [convert, hq]
    rw [hcv] at h
    obtain ⟨ht, hc, hfl⟩ := runLoop_success env.insertError db0 env.rows _ h
    refine ⟨rfl, ?_, ?_, ?_⟩
    · rw [hcv, ht]; simp
    · rw [hcv, hc]; simp
    · rw [hcv, hfl]; simp

/-- Characterization of a successful row transform: every output field
comes from the corresponding coercion of the source field. -/
theorem transformRow_fields {r : SourceRow} {tr : KbarRow}
    (h : transformRow r = some tr) :
    pyFloat r.Open = some tr.Open ∧ pyFloat r.High = some tr.High
    ∧ pyFloat r.Low = some tr.Low ∧ pyFloat r.Close = some tr.Close
    ∧ pyInt r.Volume = some tr.Volume ∧ tr.ts = tsToStr r.ts
    ∧ tr.stock_code = r.stock_code := by
  rw [transformRow] at h
  cases ho : pyFloat r.Open with
  | none => simp [ho] at h
  | some o =>
    cases hhi : pyFloat r.High with
    | none => simp [ho, hhi] at h
    | some i =>
      cases hlo : pyFloat r.Low with
      | none => simp [ho, hhi, hlo] at h
      | some lo =>
        cases hcl : pyFloat r.Close with
        | none => simp [ho, hhi, hlo, hcl] at h
        | some c =>
          cases hv : pyInt r.Volume with
          | none => simp [ho, hhi, hlo, hcl, hv] at h
          | some v =>
            simp [ho, hhi, hlo, hcl, hv] at h
            subst h
            exact ⟨rfl, rfl, rfl, rfl, rfl, rfl, rfl⟩

/-- C1: whenever an exception is raised after the sink connection is
opened — a source query error, a coercion error, or a sink insert error at
any batch including the last — all changes of the run (schema creation and
every batch upsert) are rolled back, the error propagates to the caller,
and the sink is left in its pre-run state with no partial rows
committed. -/
theorem claim_C1 (env : Env) (db0 : Option (List KbarRow)) (e : ConvError)
    (h : (convert env db0).error = some e) :
    (convert env db0).committed = db0 := by
  cases hq : env.queryError with
  | true => simp [convert, hq]
  | false =>
    have hcv : convert env db0 = runLoop env.insertError db0 env.rows
        { working := createTable db0, batch := [], total := 0, flushIdx := 0,
          flushes := [], reports := [] } := by
      simp [convert, hq]
    rw [hcv] at h ⊢
    exact runLoop_error_committed env.insertError db0 env.rows _ e h

/-- Witness for C1: a run failing on an uncoercible row leaves a
pre-populated sink table exactly as it was. -/
theorem claim_C1_witness :
    (convert envBad (some [preKbar])).error = some ConvError.coercionFailed
    ∧ (convert envBad (some [preKbar])).committed = some [preKbar] :=
  ⟨by decide,
   claim_C1 envBad (some [preKbar]) ConvError.coercionFailed (by decide)⟩

/-- C2: running the transfer twice in succession against unchanged source
data yields a sink table identical after the first and after the second
run — the second run inserts no duplicate rows and changes no stored
value (here: the committed table, and the reported total, are equal). -/
theorem claim_C2 (env : Env) (db0 : Option (List KbarRow))
    (h1 : (convert env db0).error = none)
    (h2 : (convert env ((convert env db0).committed)).error = none) :
    (convert env ((convert env db0).committed)).committed
      = (convert env db0).committed
    ∧ (convert env ((convert env db0).committed)).total
      = (convert env db0).total := by
  obtain ⟨-, ht1, hc1, -⟩ := convert_success env db0 h1
  obtain ⟨-, ht2, hc2, -⟩ := convert_success env _ h2
  have hct : createTable ((convert env db0).committed)
      = applyBatch (createTable db0) (env.rows.filterMap transformRow) := by
    rw [hc1]; rfl
  refine ⟨?_, by rw [ht2, ht1]⟩
  rw [hc2, hct, applyBatch_idem, hc1]

/-- Witness for C2 at a concrete two-row source. -/
theorem claim_C2_witness :
    (convert envOk ((convert envOk none).committed)).committed
      = (convert envOk none).committed :=
  (claim_C2 envOk none (by decide) (by decide)).1

/-- C3: when two source rows share the (ts, stock_code) key but differ in
other fields, after the transfer the sink holds exactly one row for that
key, carrying the later-applied row's values: re-loading an existing key
overwrites rather than duplicates. -/
theorem claim_C3 (env : Env) (db0 : Option (List KbarRow))
    (s₁ s₂ : SourceRow) (t₁ t₂ : KbarRow)
    (hrows : env.rows = [s₁, s₂])
    (h₁ : transformRow s₁ = some t₁) (h₂ : transformRow s₂ = some t₂)
    (hk : rowKey t₁ = rowKey t₂)
    (h : (convert env db0).error = none) :
    ∃ T, (convert env db0).committed = some T
      ∧ countKey (rowKey t₂) T = 1
      ∧ tableLookup (rowKey t₂) T = some t₂ := by
  obtain ⟨-, -, hc, -⟩ := convert_success env db0 h
  rw [hrows] at hc
  have hfm : [s₁, s₂].filterMap transformRow = [t₁, t₂] := by
    simp [List.filterMap_cons, h₁, h₂]
  rw [hfm] at hc
  have hmem : t₂ ∈ [t₁, t₂] := by simp
  have hdd : dedupLast [t₁, t₂] = [t₂] := by
    have hkf : keyFree [t₂] t₁ = false := by
      simp [keyFree, hk.symm]
    rw [dedupLast, hkf]
    rfl
  refine ⟨_, hc, ?_, ?_⟩
  · rw [applyBatch_eq, hdd, countKey, List.countP_append]
    have h0 : countKey (rowKey t₂) ((createTable db0).filter (keyFree [t₁, t₂])) = 0 :=
      countKey_filter_keyFree hmem rfl
    rw [countKey] at h0
    rw [h0]
    simp [countKey]
  · rw [applyBatch_eq, hdd, tableLookup_append,
      tableLookup_filter_keyFree hmem rfl]
    simp [tableLookup]

/-- Witness for C3: the duplicate-key pair commits only the second row's
values. -/
theorem claim_C3_witness :
    ∃ T, (convert envDup none).committed = some T
      ∧ countKey (rowKey kbarK2) T = 1
      ∧ tableLookup (rowKey kbarK2) T = some kbarK2 :=
  claim_C3 envDup none rowK1 rowK2 kbarK1 kbarK2 rfl (by decide) (by decide)
    (by decide) (by decide)

/-- C4: for every number N of source rows — in particular N not a multiple
of the batch threshold 1000 — the loop flushes the final partial buffer,
so the reported total of transferred rows equals N exactly. -/
theorem claim_C4 (env : Env) (db0 : Option (List KbarRow))
    (h : (convert env db0).error = none) :
    (convert env db0).total = env.rows.length :=
  (convert_success env db0 h).2.1

/-- Witness for C4 with N = 2 (not a multiple of 1000). -/
theorem claim_C4_witness : (convert envOk none).total = envOk.rows.length :=
  claim_C4 envOk none (by decide)

/-- C5 counterexample: the claim says every PROVIDED limit is appended
verbatim with no zero validation, but the script's `if limit:` treats the
provided limit 0 as falsy — the query is the no-limit query and carries no
LIMIT clause. -/
theorem claim_C5_counterexample :
    buildQuery "p" "d" "t" (some 0) = buildQuery "p" "d" "t" none
    ∧ buildQuery "p" "d" "t" (some 0) ≠ baseQuery "p" "d" "t" ++ " LIMIT 0" := by
  refine ⟨rfl, fun hcontra => ?_⟩
  have hlen := congrArg String.length hcontra
  exact absurd hlen (by decide)

/-- C5 (amended): every provided NONZERO limit — negative values included,
with no local validation — is appended verbatim as a LIMIT clause; an
absent (or zero, hence falsy) limit appends nothing; and a run whose
source delivers at most 5 rows transfers at most 5 rows. -/
theorem claim_C5 (p d t : String) (n : Int) (hn : n ≠ 0)
    (env : Env) (db0 : Option (List KbarRow))
    (hlen : env.rows.length ≤ 5) :
    buildQuery p d t (some n) = baseQuery p d t ++ " LIMIT " ++ toString n
    ∧ buildQuery p d t none = baseQuery p d t
    ∧ (convert env db0).total ≤ 5 := by
  refine ⟨by simp [buildQuery, hn], rfl, ?_⟩
  cases hq : env.queryError with
  | true => simp [convert, hq]
  | false =>
    have hcv : convert env db0 = runLoop env.insertError db0 env.rows
        { working := createTable db0, batch := [], total := 0, flushIdx := 0,
          flushes := [], reports := [] } := by
      simp [convert, hq]
    rw [hcv]
    refine le_trans (runLoop_total_le env.insertError db0 env.rows _) ?_
    simpa using hlen

/-- Witness for C5 (amended): a negative limit is appended verbatim and a
two-row source transfers at most 5 rows. -/
theorem claim_C5_witness :
    buildQuery "p" "d" "t" (some (-7))
      = baseQuery "p" "d" "t" ++ " LIMIT " ++ toString (-7 : Int)
    ∧ buildQuery "p" "d" "t" none = baseQuery "p" "d" "t"
    ∧ (convert envOk none).total ≤ 5 :=
  claim_C5 "p" "d" "t" (-7) (by decide) envOk none (by decide)

/-- C6: the numeric fields are explicitly coerced during the transform —
a volume given as the numeric string "1200" is stored as the integer 1200,
a close given as the integer 101 is stored as the float 101.0, and an
incompatible value is not silently passed through (the transform
raises). -/
theorem claim_C6 :
    (∀ (r : SourceRow) (tr : KbarRow), transformRow r = some tr →
        pyFloat r.Open = some tr.Open ∧ pyFloat r.High = some tr.High
        ∧ pyFloat r.Low = some tr.Low ∧ pyFloat r.Close = some tr.Close
        ∧ pyInt r.Volume = some tr.Volume)
    ∧ transformRow rowCoerce = some kbarCoerce
    ∧ kbarCoerce.Close = (101 : ℚ) ∧ kbarCoerce.Volume = (1200 : Int)
    ∧ transformRow rowBad = none := by
  refine ⟨?_, by decide, rfl, rfl, by decide⟩
  intro r tr h
  obtain ⟨h1, h2, h3, h4, h5, -, -⟩ := transformRow_fields h
  exact ⟨h1, h2, h3, h4, h5⟩

/-- Witness for C6's universally quantified part at the sample row. -/
theorem claim_C6_witness :
    pyFloat rowCoerce.Close = some kbarCoerce.Close
    ∧ pyInt rowCoerce.Volume = some kbarCoerce.Volume := by
  have h := claim_C6.1 rowCoerce kbarCoerce (by decide)
  exact ⟨h.2.2.2.1, h.2.2.2.2⟩

/-- C7: the timestamp of every source row is transformed to a canonical
sortable text form: a value with date-time semantics is rendered in ISO
form, any other value is coerced to text as-is. -/
theorem claim_C7 :
    (∀ d : DateTime, hasIsoformat (Value.vDateTime d) = true
        ∧ tsToStr (Value.vDateTime d) = d.isoformat)
    ∧ (∀ v : Value, hasIsoformat v = false → tsToStr v = pyStr v)
    ∧ (∀ (r : SourceRow) (tr : KbarRow), transformRow r = some tr →
        tr.ts = tsToStr r.ts)
    ∧ tsToStr (Value.vDateTime dtSample) = "2024-03-07T09:05:00"
    ∧ tsToStr (Value.vStr "not-a-datetime") = "not-a-datetime" := by
  refine ⟨fun d => ⟨rfl, rfl⟩, ?_, ?_, by decide, rfl⟩
  · intro v hv
    cases v with
    | vInt n => rfl
    | vFloat q => rfl
    | vStr s => rfl
    | vDateTime d => simp [hasIsoformat] at hv
  · intro r tr h
    exact (transformRow_fields h).2.2.2.2.2.1

/-- Witness for C7's hypothesis-bearing part at a non-datetime value. -/
theorem claim_C7_witness :
    hasIsoformat (Value.vStr "x") = false
    ∧ tsToStr (Value.vStr "x") = pyStr (Value.vStr "x") :=
  ⟨rfl, claim_C7.2.1 (Value.vStr "x") rfl⟩

/-- C8 counterexample: with two source rows sharing a (ts, stock_code)
key but differing in Close, the two arrival orders are permutations of
each other yet commit different final tables — the claim fails for
datasets with duplicate keys. -/
theorem claim_C8_counterexample :
    envDupRev.rows.Perm envDup.rows
    ∧ (convert envDup none).error = none
    ∧ (convert envDupRev none).error = none
    ∧ (convert envDup none).committed ≠ (convert envDupRev none).committed := by
  exact ⟨by decide, by decide, by decide, by decide⟩

/-- C8 (amended): when the transformed source rows carry pairwise
distinct (ts, stock_code) keys — the data-model invariant — the final
sink contents after a successful transfer do not depend on the arrival
order: two permuted runs commit tables of equal row count agreeing on
every key lookup; only intermediate progress reporting depends on the
order. -/
theorem claim_C8 (env₁ env₂ : Env) (db0 : Option (List KbarRow))
    (hperm : env₁.rows.Perm env₂.rows)
    (hnd : ((env₁.rows.filterMap transformRow).map rowKey).Nodup)
    (h₁ : (convert env₁ db0).error = none)
    (h₂ : (convert env₂ db0).error = none) :
    ∃ T₁ T₂, (convert env₁ db0).committed = some T₁
      ∧ (convert env₂ db0).committed = some T₂
      ∧ T₁.length = T₂.length
      ∧ ∀ k, tableLookup k T₁ = tableLookup k T₂ := by
  obtain ⟨-, -, hc₁, -⟩ := convert_success env₁ db0 h₁
  obtain ⟨-, -, hc₂, -⟩ := convert_success env₂ db0 h₂
  have hp : (env₁.rows.filterMap transformRow).Perm
      (env₂.rows.filterMap transformRow) := hperm.filterMap transformRow
  have hnd₂ : ((env₂.rows.filterMap transformRow).map rowKey).Nodup :=
    ((hp.map rowKey).nodup_iff).mp hnd
  have hkf : ∀ x, keyFree (env₁.rows.filterMap transformRow) x
      = keyFree (env₂.rows.filterMap transformRow) x := by
    intro x
    rw [Bool.eq_iff_iff]
    simp only [keyFree_eq_true_iff]
    constructor
    · intro hh r hr
      exact hh r (hp.mem_iff.mpr hr)
    · intro hh r hr
      exact hh r (hp.mem_iff.mp hr)
  have hT₁ : applyBatch (createTable db0) (env₁.rows.filterMap transformRow)
      = (createTable db0).filter (keyFree (env₁.rows.filterMap transformRow))
        ++ env₁.rows.filterMap transformRow := by
    rw [applyBatch_eq, dedupLast_of_nodupKeys hnd]
  have hT₂ : applyBatch (createTable db0) (env₂.rows.filterMap transformRow)
      = (createTable db0).filter (keyFree (env₁.rows.filterMap transformRow))
        ++ env₂.rows.filterMap transformRow := by
    rw [applyBatch_eq, dedupLast_of_nodupKeys hnd₂]
    congr 1
    exact List.filter_congr (fun x _ => (hkf x).symm)
  refine ⟨_, _, by rw [hc₁, hT₁], by rw [hc₂, hT₂], ?_, ?_⟩
  · simp [hp.length_eq]
  · intro k
    rw [tableLookup_append, tableLookup_append, tableLookup_perm hp hnd k]

/-- Witness for C8 (amended) at a concrete distinct-key two-row source. -/
theorem claim_C8_witness :
    ∃ T₁ T₂, (convert envOk none).committed = some T₁
      ∧ (convert envOkRev none).committed = some T₂
      ∧ T₁.length = T₂.length
      ∧ ∀ k, tableLookup k T₁ = tableLookup k T₂ :=
  claim_C8 envOk envOkRev none (by decide) (by decide) (by decide) (by decide)

/-- C9: on a successful pass the batch buffer is flushed whenever it
reaches 1000 rows and reset: every flush but the trailing partial one is
exactly 1000 rows, no flush exceeds 1000 rows or is empty, and the
concatenation of all flushes is exactly the transformed source stream —
each row is applied exactly once. -/
theorem claim_C9 (env : Env) (db0 : Option (List KbarRow))
    (h : (convert env db0).error = none) :
    (convert env db0).flushes.flatten = env.rows.filterMap transformRow
    ∧ (∀ b ∈ (convert env db0).flushes.dropLast, b.length = 1000)
    ∧ (∀ b ∈ (convert env db0).flushes, 0 < b.length ∧ b.length ≤ 1000) := by
  refine ⟨(convert_success env db0 h).2.2.2, ?_⟩
  cases hq : env.queryError with
  | true => simp [convert, hq] at h
  | false =>
    have hcv : convert env db0 = runLoop env.insertError db0 env.rows
        { working := createTable db0, batch := [], total := 0, flushIdx := 0,
          flushes := [], reports := [] } := by
      simp [convert, hq]
    rw [hcv] at h ⊢
    exact runLoop_flush_bounds env.insertError db0 env.rows _
      (by simp) (by simp) h

/-- Witness for C9 at a concrete two-row source (one partial flush). -/
theorem claim_C9_witness :
    (convert envDup none).flushes.flatten
      = envDup.rows.filterMap transformRow :=
  (claim_C9 envDup none (by decide)).1

/-- C10: a run whose source query yields zero rows still completes
successfully — the table is created if absent, no insert is executed, the
commit takes place, and the reported total is 0. -/
theorem claim_C10 (env : Env) (db0 : Option (List KbarRow))
    (hr : env.rows = []) (hq : env.queryError = false) :
    (convert env db0).error = none
    ∧ (convert env db0).total = 0
    ∧ (convert env db0).flushes = []
    ∧ (convert env db0).committed = some (createTable db0)
    ∧ createTable none = [] := by
  have hcv : convert env db0 = ⟨none, 0, some (createTable db0), [], []⟩ := by
    simp [convert, hq, hr, runLoop]
  rw [hcv]
  exact ⟨rfl, rfl, rfl, rfl, rfl⟩

/-- Witness for C10: the empty-source run against an absent table. -/
theorem claim_C10_witness :
    (convert envEmpty none).error = none
    ∧ (convert envEmpty none).total = 0
    ∧ (convert envEmpty none).committed = some [] := by
  obtain ⟨h1, h2, h3, h4, h5⟩ := claim_C10 envEmpty none rfl rfl
  exact ⟨h1, h2, by rw [h4, h5]⟩

end BqToSqlite
